import Mathlib

/-!
Fitness dashboard (`React Playground/src/App.jsx`): state logic and its properties.

A shallow embedding of the stateful logic of `App.jsx`:

* `useChatbot` / `sendMessage` (lines 4-28): the chat history and its state updates;
* `handleInputChange` (lines 31-36): the digit-only filter of the metric fields;
* `getDaysInMonth`, `getFirstDayOfMonth`, `renderCalendar`, `changeMonth` (lines 68-100);
* `addTask`, `toggleTask`, `removeTask` (lines 139-154).

React state is passed explicitly: a handler is a function of the values its closure captured
and, where it matters, of the state current at the time its update is applied.  The built-ins
the handlers call (`String.prototype.trim`, `RegExp.prototype.test`, `Date`) follow ECMA-262.
Numbers are integers, `NaN` is `none`; the local time zone is a parameter `tz`.
-/

namespace App

/-! ## JavaScript values -/

/-- JavaScript values as far as `JSON.parse` and the chat messages need them
(numbers are integer valued here). -/
inductive JsValue where
  | undefined : JsValue
  | null : JsValue
  | bool (b : Bool) : JsValue
  | number (n : Int) : JsValue
  | string (s : String) : JsValue
  | array (items : List JsValue) : JsValue
  | object (props : List (String × JsValue)) : JsValue

/-- Property read `data.response`: `none` is the `TypeError` thrown on `null` and `undefined`;
an object (`props` lists each own property once) yields its own property or `undefined`;
every other value yields `undefined` (neither `Object.prototype` nor the wrappers of
primitives and arrays define `response`). -/
def getResponse : JsValue → Option JsValue
  | JsValue.undefined => none
  | JsValue.null => none
  | JsValue.object props =>
    match props.lookup "response" with
    | some v => some v
    | none => some JsValue.undefined
  | _ => some JsValue.undefined

/-! ## React `useState` -/

/-- Argument of a state setter: a plain value replaces the state, a function is applied to
the state current when the update is processed. -/
inductive SetStateAction (σ : Type) where
  | value (v : σ) : SetStateAction σ
  | updater (f : σ → σ) : SetStateAction σ

/-- State after processing one queued action on the current state. -/
def SetStateAction.apply {σ : Type} : SetStateAction σ → σ → σ
  | SetStateAction.value v, _ => v
  | SetStateAction.updater f, current => f current

/-! ## `useChatbot` (lines 4-28) -/

/-- Sender tag of a chat message: `'user'` or `'bot'`. -/
inductive Sender where
  | user : Sender
  | bot : Sender
  deriving DecidableEq, Repr

/-- Chat message `{ text, sender }`; a bot text is whatever `data.response` evaluates to. -/
structure ChatMessage where
  text : JsValue
  sender : Sender

/-- How `await fetch(...)` followed by `await response.json()` ends: `fetch` rejects (network
error), or it resolves with a response of some HTTP status whose body either fails to parse
as JSON (`body = none`, `response.json()` rejects) or parses to `data`. -/
inductive FetchOutcome where
  | rejected : FetchOutcome
  | responded (status : Nat) (body : Option JsValue) : FetchOutcome

/-- Text of the message appended in the `catch` block (line 23). -/
def fallbackText : String := "Sorry, something went wrong. Please try again later."

/-- Line 8: `setMessages([...messages, { text, sender: 'user' }])`, where `messages` is the
value captured by the closure of `sendMessage`. -/
def userUpdate (messages : List ChatMessage) (text : String) :
    SetStateAction (List ChatMessage) :=
  SetStateAction.value (messages ++ [{ text := JsValue.string text, sender := Sender.user }])

/-- The message of line 23, appended by the `catch` block. -/
def fallbackMessage : ChatMessage :=
  { text := JsValue.string fallbackText, sender := Sender.bot }

/-- Lines 10-24: the update queued for the bot message.  Control reaches `catch` (line 23)
when `fetch` rejects or `response.json()` rejects; the status of the response is never read.
Otherwise line 21 queues an updater whose body reads `data.response` when React runs it,
outside the `try`: for `data = null` that read throws, nothing catches it and no state
results (`none`). -/
def botUpdate : FetchOutcome → Option (SetStateAction (List ChatMessage))
  | FetchOutcome.rejected =>
    some (SetStateAction.updater (fun msgs => msgs ++ [fallbackMessage]))
  | FetchOutcome.responded _ none =>
    some (SetStateAction.updater (fun msgs => msgs ++ [fallbackMessage]))
  | FetchOutcome.responded _ (some data) =>
    match getResponse data with
    | some reply =>
      some (SetStateAction.updater (fun msgs => msgs ++ [{ text := reply, sender := Sender.bot }]))
    | none => none

/-- History after `sendMessage(text)` has resolved, when the closure captured the current
history `h` and no other update is processed in between; `none` when the updater of
line 21 throws. -/
def sendMessage (h : List ChatMessage) (text : String) (outcome : FetchOutcome) :
    Option (List ChatMessage) :=
  (botUpdate outcome).map (fun update => update.apply ((userUpdate h text).apply h))

/-! ## `handleInputChange` (lines 31-36) -/

/-- Class `\d` of a regular expression without the `u` flag: the ten characters `0`-`9`. -/
def isDigitClass (c : Char) : Bool :=
  decide ('0' ≤ c) && decide (c ≤ '9')

/-- Matcher for `\d+$` at the current position: one digit, then greedily more digits, then
the end of the input (`$` without the `m` flag matches only there). -/
def matchDigitsToEnd : List Char → Bool
  | [] => false
  | c :: rest => isDigitClass c && (rest.isEmpty || matchDigitsToEnd rest)

/-- Result of `/^\d+$/.test(value)`: `^` anchors the match at position 0. -/
def regexTest (value : String) : Bool :=
  matchDigitsToEnd value.data

/-- Field value after `handleInputChange(setter)(e)` with `e.target.value = value`, the
field holding `previous`: `setter(value)` runs only under the guard of line 33. -/
def handleInputChange (previous value : String) : String :=
  if value = "" || regexTest value then value else previous

/-- In the words of the specification: a string of one or more decimal digits only. -/
def OneOrMoreDecimalDigits (s : String) : Prop :=
  s.data ≠ [] ∧ ∀ c ∈ s.data, c ∈ ['0', '1', '2', '3', '4', '5', '6', '7', '8', '9']

instance (s : String) : Decidable (OneOrMoreDecimalDigits s) := by
  unfold OneOrMoreDecimalDigits; infer_instance

/-! ## ECMAScript dates (ECMA-262, Date objects) -/

def msPerDay : Int := 86400000

/-- The specification function `Day(t) = floor(t / msPerDay)`. -/
def Day (t : Int) : Int := t / msPerDay

/-- The specification function `TimeWithinDay(t) = t modulo msPerDay`. -/
def TimeWithinDay (t : Int) : Int := t % msPerDay

def DaysInYear (y : Int) : Int :=
  if y % 4 ≠ 0 then 365
  else if y % 100 ≠ 0 then 366
  else if y % 400 ≠ 0 then 365
  else 366

def DayFromYear (y : Int) : Int :=
  365 * (y - 1970) + (y - 1969) / 4 - (y - 1901) / 100 + (y - 1601) / 400

def TimeFromYear (y : Int) : Int := msPerDay * DayFromYear y

/-- Year containing day number `d`: an estimate from the mean length of a Gregorian year,
corrected by at most one year either way. -/
def yearOfDay (d : Int) : Int :=
  let y := 1970 + (d * 400) / 146097
  if DayFromYear (y + 1) ≤ d then y + 1
  else if DayFromYear y ≤ d then y
  else y - 1

/-- The specification function `YearFromTime(t)`: the largest `y` with `TimeFromYear(y) ≤ t`
(see `YearFromTime_largest`). -/
def YearFromTime (t : Int) : Int := yearOfDay (Day t)

def InLeapYear (t : Int) : Int :=
  if DaysInYear (YearFromTime t) = 366 then 1 else 0

def DayWithinYear (t : Int) : Int := Day t - DayFromYear (YearFromTime t)

/-- Month number of a day within a year, `leap` being 0 or 1 (table of `MonthFromTime`). -/
def monthOfDayInYear (d leap : Int) : Int :=
  if d < 31 then 0
  else if d < 59 + leap then 1
  else if d < 90 + leap then 2
  else if d < 120 + leap then 3
  else if d < 151 + leap then 4
  else if d < 181 + leap then 5
  else if d < 212 + leap then 6
  else if d < 243 + leap then 7
  else if d < 273 + leap then 8
  else if d < 304 + leap then 9
  else if d < 334 + leap then 10
  else 11

def MonthFromTime (t : Int) : Int := monthOfDayInYear (DayWithinYear t) (InLeapYear t)

/-- Day within the year of the first day of month `m` (0-11), `leap` being 0 or 1. -/
def monthStart (m leap : Int) : Int :=
  if m = 0 then 0
  else if m = 1 then 31
  else if m = 2 then 59 + leap
  else if m = 3 then 90 + leap
  else if m = 4 then 120 + leap
  else if m = 5 then 151 + leap
  else if m = 6 then 181 + leap
  else if m = 7 then 212 + leap
  else if m = 8 then 243 + leap
  else if m = 9 then 273 + leap
  else if m = 10 then 304 + leap
  else 334 + leap

/-- The specification function `DateFromTime(t)`: the day of the month, 1-31. -/
def DateFromTime (t : Int) : Int :=
  DayWithinYear t - monthStart (MonthFromTime t) (InLeapYear t) + 1

/-- The specification function `WeekDay(t)`: 0 is Sunday. -/
def WeekDay (t : Int) : Int := (Day t + 4) % 7

/-- The specification function `MakeDay(year, month, date)`: with `ym = year + floor(month / 12)`
and `mn = month modulo 12`, the day number of the first of month `mn` of year `ym`, plus
`date - 1` (see `MakeDay_first`: that day has year `ym`, month `mn` and date 1). -/
def MakeDay (year month date : Int) : Int :=
  let ym := year + month / 12
  let mn := month % 12
  DayFromYear ym + monthStart mn (if DaysInYear ym = 366 then 1 else 0) + date - 1

def MakeDate (day time : Int) : Int := day * msPerDay + time

/-- The specification function `TimeClip`: `NaN` beyond 8.64e15 ms either side of the epoch. -/
def TimeClip (time : Int) : Option Int :=
  if time < -8640000000000000 ∨ 8640000000000000 < time then none else some time

/-- The specification function `MakeFullYear`: years 0-99 stand for 1900-1999. -/
def MakeFullYear (year : Int) : Int :=
  if 0 ≤ year ∧ year ≤ 99 then 1900 + year else year

/-- Local time zone: the implementation-defined `LocalTZA(t, isUTC)` of ECMA-262, the
offset in milliseconds in force at the UTC time `t` (`isUTC = true`) or used to read the
local time `t` (`isUTC = false`). -/
structure TimeZone where
  LocalTZA : Int → Bool → Int

/-- The specification function `LocalTime(t) = t + LocalTZA(t, true)`. -/
def LocalTime (tz : TimeZone) (t : Int) : Int := t + tz.LocalTZA t true

/-- The specification function `UTC(t) = t - LocalTZA(t, false)`. -/
def UTC (tz : TimeZone) (t : Int) : Int := t - tz.LocalTZA t false

/-- A zone at the constant offset `c` from UTC (no transition). -/
def fixedOffset (c : Int) : TimeZone := { LocalTZA := fun _ _ => c }

/-- The zone UTC. -/
def utc : TimeZone := fixedOffset 0

/-- The offsets of Pacific/Kiritimati around its change of 1994: ten hours behind UTC until
1994-12-31T10:00Z (local midnight), fourteen hours ahead from then on, so that the local
day 31 December 1994 does not exist; a skipped local time is read with the offset before
the transition. -/
def kiritimati : TimeZone :=
  { LocalTZA := fun t isUTC =>
      if isUTC then (if t < 788868000000 then -36000000 else 50400000)
      else (if t < 788868000000 + 50400000 then -36000000 else 50400000) }

/-- The local time value `finalDate` built by `new Date(year, month, date)`:
`MakeDate(MakeDay(MakeFullYear(year), month, date), MakeTime(0, 0, 0, 0))`. -/
def finalDate (year month date : Int) : Int :=
  MakeDate (MakeDay (MakeFullYear year) month date) 0

/-- Time value of `new Date(year, month, date)`: `TimeClip(UTC(finalDate))`; `none` is an
Invalid Date. -/
def newDate (tz : TimeZone) (year month date : Int) : Option Int :=
  TimeClip (UTC tz (finalDate year month date))

def getDate (tz : TimeZone) (tv : Option Int) : Option Int :=
  tv.map (fun t => DateFromTime (LocalTime tz t))

def getDay (tz : TimeZone) (tv : Option Int) : Option Int :=
  tv.map (fun t => WeekDay (LocalTime tz t))

def getMonth (tz : TimeZone) (tv : Option Int) : Option Int :=
  tv.map (fun t => MonthFromTime (LocalTime tz t))

def getFullYear (tz : TimeZone) (tv : Option Int) : Option Int :=
  tv.map (fun t => YearFromTime (LocalTime tz t))

/-- Time value after `setMonth(month)`: with `t = LocalTime(tv)`, the year, the day of the
month and the time within the day of `t` are kept, `MakeDay` resolves the month, and the
result is `TimeClip(UTC(newDate))`; `NaN` stays `NaN`. -/
def setMonth (tz : TimeZone) (tv month : Option Int) : Option Int :=
  match tv, month with
  | some tv, some m =>
    TimeClip (UTC tz (MakeDate
      (MakeDay (YearFromTime (LocalTime tz tv)) m (DateFromTime (LocalTime tz tv)))
      (TimeWithinDay (LocalTime tz tv))))
  | _, _ => none

/-- The local time `t` stays on its calendar day when it is read as a local time and shown
again in local time: no zone transition moves it to another day. -/
def keepsLocalDay (tz : TimeZone) (t : Int) : Prop :=
  Day (LocalTime tz (UTC tz t)) = Day t

instance (tz : TimeZone) (t : Int) : Decidable (keepsLocalDay tz t) := by
  unfold keepsLocalDay; infer_instance

/-- The time value `t` lies within the range of `Date` (it passes `TimeClip`). -/
def inDateRange (t : Int) : Prop :=
  -8640000000000000 ≤ t ∧ t ≤ 8640000000000000

instance (t : Int) : Decidable (inDateRange t) := by
  unfold inDateRange; infer_instance

/-! ## `CalendarScreen` (lines 67-100) -/

/-- Line 71: `new Date(year, month + 1, 0).getDate()`. -/
def getDaysInMonth (tz : TimeZone) (year month : Int) : Option Int :=
  getDate tz (newDate tz year (month + 1) 0)

/-- Line 72: `new Date(year, month, 1).getDay()`. -/
def getFirstDayOfMonth (tz : TimeZone) (year month : Int) : Option Int :=
  getDay tz (newDate tz year month 1)

/-- Cell of the grid: a blank `<div key="empty-i">` or a `<div key={day}>` showing `day`. -/
inductive Cell where
  | empty (i : Int) : Cell
  | day (day : Int) : Cell
  deriving DecidableEq, Repr

/-- Lines 79-81: `for (let i = 0; i < firstDayOfMonth; i++) calendarDays.push(empty i)`,
from the current `i`. -/
def pushEmpty (firstDayOfMonth i : Int) (calendarDays : List Cell) : List Cell :=
  if i < firstDayOfMonth then
    pushEmpty firstDayOfMonth (i + 1) (calendarDays ++ [Cell.empty i])
  else calendarDays
termination_by (firstDayOfMonth - i).toNat
decreasing_by omega

/-- Lines 83-89: `for (let day = 1; day <= daysInMonth; day++) calendarDays.push(day cell)`,
from the current `day`. -/
def pushDays (daysInMonth day : Int) (calendarDays : List Cell) : List Cell :=
  if day ≤ daysInMonth then
    pushDays daysInMonth (day + 1) (calendarDays ++ [Cell.day day])
  else calendarDays
termination_by (daysInMonth + 1 - day).toNat
decreasing_by omega

/-- Lines 74-92.  A comparison with `NaN` is false, so a loop bounded by `NaN` runs no
iteration. -/
def renderCalendar (tz : TimeZone) (year month : Int) : List Cell :=
  let daysInMonth := getDaysInMonth tz year month
  let firstDayOfMonth := getFirstDayOfMonth tz year month
  let calendarDays : List Cell := []
  let calendarDays :=
    match firstDayOfMonth with
    | some n => pushEmpty n 0 calendarDays
    | none => calendarDays
  match daysInMonth with
  | some n => pushDays n 1 calendarDays
  | none => calendarDays

/-- Lines 94-100: the updater passed to `setCurrentDate`, applied to `prevDate`:
a copy of the date, then `setMonth(getMonth() + increment)`. -/
def changeMonth (tz : TimeZone) (prevDate : Option Int) (increment : Int) : Option Int :=
  let newDate := prevDate
  setMonth tz newDate ((getMonth tz newDate).map (fun m => m + increment))

/-- What the screen shows of the cursor: `(getFullYear(), getMonth())` (lines 108 and 116). -/
def displayed (tz : TimeZone) (currentDate : Option Int) : Option (Int × Int) :=
  currentDate.map (fun t => (YearFromTime (LocalTime tz t), MonthFromTime (LocalTime tz t)))

/-- In the words of the specification: leap years of the Gregorian calendar. -/
def isGregorianLeapYear (year : Int) : Prop :=
  (year % 4 = 0 ∧ year % 100 ≠ 0) ∨ year % 400 = 0

instance (year : Int) : Decidable (isGregorianLeapYear year) := by
  unfold isGregorianLeapYear; infer_instance

/-- In the words of the specification: the length of month `month` (0-11) of `year` under
the Gregorian rules. -/
def gregorianDaysInMonth (year month : Int) : Int :=
  if month = 1 then (if isGregorianLeapYear year then 29 else 28)
  else if month = 3 ∨ month = 5 ∨ month = 8 ∨ month = 10 then 30
  else 31

/-! ## `TasksScreen` (lines 136-154) -/

/-- Task record `{ id, text, completed }`; `id` is a reading of `Date.now()`. -/
structure Task where
  id : Int
  text : String
  completed : Bool
  deriving DecidableEq, Repr

/-- Code points removed by `String.prototype.trim`: WhiteSpace and LineTerminator. -/
def isTrimmed (c : Char) : Bool :=
  let n := c.toNat
  n = 0x9 || n = 0xA || n = 0xB || n = 0xC || n = 0xD || n = 0x20 || n = 0xA0 ||
  n = 0x1680 || (0x2000 ≤ n && n ≤ 0x200A) || n = 0x2028 || n = 0x2029 || n = 0x202F ||
  n = 0x205F || n = 0x3000 || n = 0xFEFF

/-- The string method `trim`: white space removed from both ends. -/
def trim (s : String) : String :=
  String.mk ((s.data.dropWhile isTrimmed).reverse.dropWhile isTrimmed).reverse

/-- Lines 139-144, with `tasks` and `newTask` as the closure holds them and `now` the
reading of `Date.now()`: the new values of `tasks` and `newTask`.  A string is truthy
when it is not empty. -/
def addTask (tasks : List Task) (newTask : String) (now : Int) : List Task × String :=
  if trim newTask ≠ "" then
    (tasks ++ [{ id := now, text := newTask, completed := false }], "")
  else (tasks, newTask)

/-- Lines 146-150. -/
def toggleTask (tasks : List Task) (id : Int) : List Task :=
  tasks.map (fun task => if task.id = id then { task with completed := !task.completed } else task)

/-- Lines 152-154. -/
def removeTask (tasks : List Task) (id : Int) : List Task :=
  tasks.filter (fun task => task.id ≠ id)

/-- One user action on the task screen; `add` carries the text typed and the clock reading. -/
inductive TaskOp where
  | add (text : String) (now : Int) : TaskOp
  | toggle (id : Int) : TaskOp
  | remove (id : Int) : TaskOp

/-- The task list after one action (each handler runs against the rendered list). -/
def stepTask (tasks : List Task) : TaskOp → List Task
  | TaskOp.add text now => (addTask tasks text now).1
  | TaskOp.toggle id => toggleTask tasks id
  | TaskOp.remove id => removeTask tasks id

/-- The task list after a sequence of actions, from `useState([])` (line 232). -/
def runTasks (ops : List TaskOp) : List Task :=
  ops.foldl stepTask []

/-- The clock readings of the `add` actions, in order. -/
def clockReadings : List TaskOp → List Int
  | [] => []
  | TaskOp.add _ now :: ops => now :: clockReadings ops
  | _ :: ops => clockReadings ops

/-! ## Task list: `addTask`, `toggleTask`, `removeTask` -/

theorem toggleTask_map_id (tasks : List Task) (id : Int) :
    (toggleTask tasks id).map Task.id = tasks.map Task.id := by
  unfold toggleTask
  induction tasks with
  | nil => rfl
  | cons t ts ih =>
    simp only [List.map_cons, List.cons.injEq]
    refine ⟨?_, ih⟩
    split <;> rfl

theorem removeTask_map_id_sublist (tasks : List Task) (id : Int) :
    ((removeTask tasks id).map Task.id).Sublist (tasks.map Task.id) := by
  unfold removeTask
  exact List.Sublist.map _ (List.filter_sublist _)

theorem foldl_stepTask_nodup (ops : List TaskOp) :
    ∀ tasks : List Task, (tasks.map Task.id).Nodup →
      (∀ i ∈ tasks.map Task.id, ∀ r ∈ clockReadings ops, i < r) →
      (clockReadings ops).Pairwise (fun a b => a < b) →
      ((ops.foldl stepTask tasks).map Task.id).Nodup := by
  induction ops with
  | nil => intro tasks h _ _; simpa using h
  | cons op ops ih =>
    intro tasks hnd hlt hpw
    rw [List.foldl_cons]
    cases op with
    | add text now =>
      simp only [clockReadings, List.pairwise_cons, List.mem_cons] at hlt hpw
      by_cases ht : trim text ≠ ""
      · have hs : stepTask tasks (TaskOp.add text now)
            = tasks ++ [{ id := now, text := text, completed := false }] := by
          simp [stepTask, addTask, ht]
        rw [hs]
        apply ih
        · rw [List.map_append, List.nodup_append]
          refine ⟨hnd, by simp, ?_⟩
          intro a ha hb
          simp only [List.map_cons, List.map_nil, List.mem_singleton] at hb
          have := hlt a ha now (Or.inl rfl)
          omega
        · intro i hi r hr
          rw [List.map_append, List.mem_append] at hi
          rcases hi with hi | hi
          · exact hlt i hi r (Or.inr hr)
          · simp only [List.map_cons, List.map_nil, List.mem_singleton] at hi
            rw [hi]
            exact hpw.1 r hr
        · exact hpw.2
      · have hs : stepTask tasks (TaskOp.add text now) = tasks := by
          simp [stepTask, addTask, ht]
        rw [hs]
        exact ih tasks hnd (fun i hi r hr => hlt i hi r (Or.inr hr)) hpw.2
    | toggle id =>
      simp only [clockReadings] at hlt hpw
      apply ih
      · simpa [stepTask, toggleTask_map_id] using hnd
      · simpa [stepTask, toggleTask_map_id] using hlt
      · exact hpw
    | remove id =>
      simp only [clockReadings] at hlt hpw
      have hsub := removeTask_map_id_sublist tasks id
      apply ih
      · exact List.Nodup.sublist hsub hnd
      · intro i hi r hr
        exact hlt i (hsub.subset hi) r hr
      · exact hpw

/-- With strictly increasing clock readings at the `add` actions, the ids of the task list
are pairwise distinct after any sequence of actions. -/
theorem runTasks_nodup_of_strict (ops : List TaskOp)
    (h : (clockReadings ops).Pairwise (fun a b => a < b)) :
    ((runTasks ops).map Task.id).Nodup :=
  foldl_stepTask_nodup ops [] (by simp) (by simp) h

/-- C1: `addTask` leaves the list unchanged when `text.trim()` is empty; otherwise the new
list is the old list followed by exactly one task `{ id: now, text, completed: false }`
carrying the text as typed (untrimmed), so the length grows by exactly 1. -/
theorem addTask_contract (tasks : List Task) (text : String) (now : Int) :
    (trim text = "" → (addTask tasks text now).1 = tasks) ∧
    (trim text ≠ "" →
      (addTask tasks text now).1
          = tasks ++ [{ id := now, text := text, completed := false }] ∧
        (addTask tasks text now).1.length = tasks.length + 1) := by
  constructor
  · intro h
    simp [addTask, h]
  · intro h
    simp [addTask, h]

theorem addTask_contract_witness :
    (addTask [{ id := 1, text := "walk", completed := true }] " \t\n" 7).1
        = [{ id := 1, text := "walk", completed := true }] ∧
      ((addTask [{ id := 1, text := "walk", completed := true }] "  run " 7).1
          = [{ id := 1, text := "walk", completed := true },
              { id := 7, text := "  run ", completed := false }] ∧
        (addTask [{ id := 1, text := "walk", completed := true }] "  run " 7).1.length
          = 1 + 1) :=
  ⟨(addTask_contract [{ id := 1, text := "walk", completed := true }] " \t\n" 7).1 (by decide),
    (addTask_contract [{ id := 1, text := "walk", completed := true }] "  run " 7).2
      (by decide)⟩

/-- C2 (failing input): two `add` actions that read the same `Date.now()` value (a
non-decreasing clock) leave two tasks with the same id in the list. -/
theorem runTasks_same_reading_duplicate_id :
    (clockReadings [TaskOp.add "walk" 1000, TaskOp.add "run" 1000]).Pairwise
        (fun a b => a ≤ b) ∧
      runTasks [TaskOp.add "walk" 1000, TaskOp.add "run" 1000]
        = [{ id := 1000, text := "walk", completed := false },
            { id := 1000, text := "run", completed := false }] ∧
      ¬ ((runTasks [TaskOp.add "walk" 1000, TaskOp.add "run" 1000]).map Task.id).Nodup := by
  decide

/-- C3: `toggleTask` applied twice with the same id gives back the original list, whether
the id is present, absent or shared by several tasks (so every `completed` is restored);
and a single `toggleTask` with an absent id leaves the list unchanged. -/
theorem toggleTask_involution (tasks : List Task) (id : Int) :
    toggleTask (toggleTask tasks id) id = tasks ∧
      (toggleTask (toggleTask tasks id) id).map Task.completed = tasks.map Task.completed ∧
      ((∀ t ∈ tasks, t.id ≠ id) → toggleTask tasks id = tasks) := by
  have h2 : toggleTask (toggleTask tasks id) id = tasks := by
    unfold toggleTask
    rw [List.map_map]
    conv_rhs => rw [← List.map_id tasks]
    apply List.map_congr_left
    intro t _
    obtain ⟨i, tx, c⟩ := t
    by_cases h : i = id <;> simp [h]
  refine ⟨h2, by rw [h2], ?_⟩
  intro habs
  unfold toggleTask
  conv_rhs => rw [← List.map_id tasks]
  apply List.map_congr_left
  intro t ht
  simp [habs t ht]

theorem toggleTask_involution_witness :
    toggleTask [{ id := 1, text := "a", completed := false },
        { id := 1, text := "b", completed := true },
        { id := 2, text := "c", completed := false }] 3
      = [{ id := 1, text := "a", completed := false },
        { id := 1, text := "b", completed := true },
        { id := 2, text := "c", completed := false }] :=
  (toggleTask_involution [{ id := 1, text := "a", completed := false },
        { id := 1, text := "b", completed := true },
        { id := 2, text := "c", completed := false }] 3).2.2 (by decide)

/-- C4: `removeTask` keeps exactly the tasks whose id differs from `id`, in their original
relative order; a second `removeTask` with the same id changes nothing, and neither does
`removeTask` with an id that is absent. -/
theorem removeTask_idempotent (tasks : List Task) (id : Int) :
    removeTask tasks id = tasks.filter (fun t => decide (t.id ≠ id)) ∧
      (removeTask tasks id).Sublist tasks ∧
      (∀ t, t ∈ removeTask tasks id ↔ t ∈ tasks ∧ t.id ≠ id) ∧
      removeTask (removeTask tasks id) id = removeTask tasks id ∧
      ((∀ t ∈ tasks, t.id ≠ id) → removeTask tasks id = tasks) := by
  refine ⟨rfl, List.filter_sublist _, ?_, ?_, ?_⟩
  · intro t
    simp [removeTask]
  · simp [removeTask, List.filter_filter]
  · intro habs
    unfold removeTask
    rw [List.filter_eq_self]
    intro t ht
    simpa using habs t ht

theorem removeTask_idempotent_witness :
    removeTask [{ id := 1, text := "a", completed := false },
        { id := 2, text := "c", completed := true }] 3
      = [{ id := 1, text := "a", completed := false },
        { id := 2, text := "c", completed := true }] :=
  (removeTask_idempotent [{ id := 1, text := "a", completed := false },
        { id := 2, text := "c", completed := true }] 3).2.2.2.2 (by decide)

/-! ## Metric fields: `handleInputChange` -/

theorem isDigitClass_iff (c : Char) :
    isDigitClass c = true ↔ c ∈ ['0', '1', '2', '3', '4', '5', '6', '7', '8', '9'] := by
  constructor
  · intro h
    simp only [isDigitClass, Bool.and_eq_true, decide_eq_true_eq] at h
    obtain ⟨h0, h9⟩ := h
    have h0n : 48 ≤ c.toNat := h0
    have h9n : c.toNat ≤ 57 := h9
    have hc : c = Char.ofNat c.toNat := (Char.ofNat_toNat c).symm
    rw [hc]
    generalize c.toNat = n at h0n h9n
    interval_cases n <;> decide
  · intro h
    simp only [List.mem_cons, List.mem_singleton, List.not_mem_nil, or_false] at h
    rcases h with h | h | h | h | h | h | h | h | h | h <;> subst h <;> decide

theorem matchDigitsToEnd_iff (l : List Char) :
    matchDigitsToEnd l = true ↔ l ≠ [] ∧ ∀ c ∈ l, isDigitClass c = true := by
  induction l with
  | nil => simp [matchDigitsToEnd]
  | cons c rest ih =>
    cases rest with
    | nil => simp [matchDigitsToEnd]
    | cons d rest2 =>
      rw [matchDigitsToEnd]
      simp only [List.isEmpty_cons, Bool.false_or, Bool.and_eq_true, ih]
      simp

theorem regexTest_iff (s : String) : regexTest s = true ↔ OneOrMoreDecimalDigits s := by
  unfold regexTest OneOrMoreDecimalDigits
  rw [matchDigitsToEnd_iff]
  constructor
  · rintro ⟨h1, h2⟩
    exact ⟨h1, fun c hc => (isDigitClass_iff c).1 (h2 c hc)⟩
  · rintro ⟨h1, h2⟩
    exact ⟨h1, fun c hc => (isDigitClass_iff c).2 (h2 c hc)⟩

/-- C5: after `handleInputChange` the field holds the candidate `c` when `c` is empty or
consists of one or more decimal digits only, and keeps its previous value `p` otherwise;
"12a3" is rejected, "123" is accepted and "" clears the field. -/
theorem handleInputChange_filter (p c : String) :
    ((c = "" ∨ OneOrMoreDecimalDigits c) → handleInputChange p c = c) ∧
      (¬ (c = "" ∨ OneOrMoreDecimalDigits c) → handleInputChange p c = p) ∧
      handleInputChange p "12a3" = p ∧
      handleInputChange p "123" = "123" ∧
      handleInputChange p "" = "" := by
  have key : (decide (c = "") || regexTest c) = true ↔ (c = "" ∨ OneOrMoreDecimalDigits c) := by
    rw [Bool.or_eq_true, decide_eq_true_eq, regexTest_iff]
  refine ⟨?_, ?_, ?_, ?_, ?_⟩
  · intro h
    unfold handleInputChange
    rw [if_pos (key.2 h)]
  · intro h
    unfold handleInputChange
    rw [if_neg (fun hk => h (key.1 hk))]
  · unfold handleInputChange
    rw [if_neg (by decide)]
  · unfold handleInputChange
    rw [if_pos (by decide)]
  · unfold handleInputChange
    rw [if_pos (by decide)]

theorem handleInputChange_filter_witness :
    handleInputChange "70" "0042" = "0042" ∧ handleInputChange "70" "4 2" = "70" :=
  ⟨(handleInputChange_filter "70" "0042").1 (by decide),
    (handleInputChange_filter "70" "4 2").2.1 (by decide)⟩

/-! ## Chat history: `sendMessage` -/

/-- When `fetch` rejects or the body is not JSON, the history (captured and current) `h`
ends up followed by the user message and the fallback message; when the body is the JSON
`null`, the updater of line 21 throws and no history results. -/
theorem sendMessage_caught (h : List ChatMessage) (text : String) (status : Nat) :
    sendMessage h text FetchOutcome.rejected
        = some (h ++ [{ text := JsValue.string text, sender := Sender.user },
            { text := JsValue.string fallbackText, sender := Sender.bot }]) ∧
      sendMessage h text (FetchOutcome.responded status none)
        = some (h ++ [{ text := JsValue.string text, sender := Sender.user },
            { text := JsValue.string fallbackText, sender := Sender.bot }]) ∧
      sendMessage h text (FetchOutcome.responded status (some JsValue.null)) = none := by
  simp [sendMessage, botUpdate, userUpdate, SetStateAction.apply, fallbackMessage, getResponse]

/-- Each bot update that yields a state (success or failure) extends whatever history is
current by exactly one message; the user append does so when the captured history is the
current one. -/
theorem botUpdate_appends (h : List ChatMessage) (outcome : FetchOutcome) (text : String)
    (update : SetStateAction (List ChatMessage)) (hu : botUpdate outcome = some update) :
    h <+: update.apply h ∧
      (update.apply h).length = h.length + 1 ∧
      h <+: (userUpdate h text).apply h ∧
      ((userUpdate h text).apply h).length = h.length + 1 := by
  have hb : update.apply h = h ++ [fallbackMessage] ∨
      ∃ reply, update.apply h = h ++ [{ text := reply, sender := Sender.bot }] := by
    cases outcome with
    | rejected =>
      simp only [botUpdate, Option.some.injEq] at hu
      rw [← hu]
      exact Or.inl rfl
    | responded status body =>
      cases body with
      | none =>
        simp only [botUpdate, Option.some.injEq] at hu
        rw [← hu]
        exact Or.inl rfl
      | some data =>
        simp only [botUpdate] at hu
        cases hr : getResponse data with
        | none => rw [hr] at hu; simp at hu
        | some reply =>
          rw [hr] at hu
          simp only [Option.some.injEq] at hu
          rw [← hu]
          exact Or.inr ⟨reply, rfl⟩
  have hu2 : h <+: (userUpdate h text).apply h ∧
      ((userUpdate h text).apply h).length = h.length + 1 := by
    simp [userUpdate, SetStateAction.apply]
  rcases hb with hb | ⟨reply, hb⟩
  · rw [hb]
    exact ⟨List.prefix_append _ _, by simp, hu2⟩
  · rw [hb]
    exact ⟨List.prefix_append _ _, by simp, hu2⟩

/-- C6 (failing input): `sendMessage("hello")` on the empty history, the endpoint answering
HTTP 401 with a JSON error body: the history ends with a bot message whose text is
`undefined`, not with the fallback message; the same happens for a wrong-shape payload
under status 200. -/
theorem sendMessage_http_error_no_fallback :
    sendMessage [] "hello"
        (FetchOutcome.responded 200 (some (JsValue.object [("reply", JsValue.string "hi")])))
      = some [{ text := JsValue.string "hello", sender := Sender.user },
          { text := JsValue.undefined, sender := Sender.bot }] ∧
    sendMessage [] "hello"
        (FetchOutcome.responded 401
          (some (JsValue.object [("error", JsValue.string "Invalid API Key")])))
      = some [{ text := JsValue.string "hello", sender := Sender.user },
          { text := JsValue.undefined, sender := Sender.bot }] ∧
    sendMessage [] "hello"
        (FetchOutcome.responded 401
          (some (JsValue.object [("error", JsValue.string "Invalid API Key")])))
      ≠ some [{ text := JsValue.string "hello", sender := Sender.user },
          { text := JsValue.string "Sorry, something went wrong. Please try again later.",
            sender := Sender.bot }] := by
  have h : sendMessage [] "hello"
        (FetchOutcome.responded 401
          (some (JsValue.object [("error", JsValue.string "Invalid API Key")])))
      = some [{ text := JsValue.string "hello", sender := Sender.user },
          { text := JsValue.undefined, sender := Sender.bot }] := by
    simp [sendMessage, botUpdate, userUpdate, SetStateAction.apply, getResponse, List.lookup]
  refine ⟨?_, h, ?_⟩
  · simp [sendMessage, botUpdate, userUpdate, SetStateAction.apply, getResponse, List.lookup]
  · rw [h]
    simp

/-- C7 (failing input): the closure of `sendMessage` captured the empty history, the current
history already holds the user message "a" (a first `sendMessage("a")` of the same closure);
the update of line 8 for "b" replaces the history by the snapshot plus "b": the current
history is not kept as the beginning of the new one and the length does not grow. -/
theorem userUpdate_replaces_current :
    (userUpdate [] "b").apply [{ text := JsValue.string "a", sender := Sender.user }]
      = [{ text := JsValue.string "b", sender := Sender.user }] ∧
    ¬ ([{ text := JsValue.string "a", sender := Sender.user }]
        <+: (userUpdate [] "b").apply [{ text := JsValue.string "a", sender := Sender.user }]) ∧
    ((userUpdate [] "b").apply [{ text := JsValue.string "a", sender := Sender.user }]).length
      ≠ [({ text := JsValue.string "a", sender := Sender.user } : ChatMessage)].length + 1 := by
  refine ⟨rfl, ?_, ?_⟩
  · simp [userUpdate, SetStateAction.apply]
  · simp [userUpdate, SetStateAction.apply]

/-! ## Dates: the year of a day number -/

theorem DayFromYear_succ (y : Int) : DayFromYear (y + 1) = DayFromYear y + DaysInYear y := by
  unfold DayFromYear DaysInYear
  split_ifs <;> omega

theorem DaysInYear_bounds (y : Int) : 365 ≤ DaysInYear y ∧ DaysInYear y ≤ 366 := by
  unfold DaysInYear
  split_ifs <;> omega

theorem DayFromYear_lt (y z : Int) (h : y < z) : DayFromYear y < DayFromYear z := by
  unfold DayFromYear
  omega

theorem yearOfDay_estimate (y d : Int) (h1 : DayFromYear y ≤ d) (h2 : d < DayFromYear (y + 1)) :
    y - 1 ≤ 1970 + (d * 400) / 146097 ∧ 1970 + (d * 400) / 146097 ≤ y + 1 := by
  unfold DayFromYear at *
  omega

theorem yearOfDay_eq (y d : Int) (h1 : DayFromYear y ≤ d) (h2 : d < DayFromYear (y + 1)) :
    yearOfDay d = y := by
  have he := yearOfDay_estimate y d h1 h2
  have s0 := DayFromYear_succ (y - 1)
  have s1 := DayFromYear_succ y
  have s2 := DayFromYear_succ (y + 1)
  have p0 := DaysInYear_bounds (y - 1)
  have p1 := DaysInYear_bounds y
  have p2 := DaysInYear_bounds (y + 1)
  unfold yearOfDay
  simp only
  generalize 1970 + (d * 400) / 146097 = e at *
  have hc : e = y - 1 ∨ e = y ∨ e = y + 1 := by omega
  rcases hc with rfl | rfl | rfl
  · simp only [sub_add_cancel] at s0 ⊢
    rw [if_pos h1]
  · rw [if_neg (by omega), if_pos h1]
  · rw [if_neg (by omega), if_neg (by omega)]; omega

theorem yearOfDay_spec (d : Int) :
    DayFromYear (yearOfDay d) ≤ d ∧ d < DayFromYear (yearOfDay d + 1) := by
  have lo : DayFromYear (1970 + (d * 400) / 146097 - 1) ≤ d := by
    unfold DayFromYear; omega
  have hi : d < DayFromYear (1970 + (d * 400) / 146097 + 1 + 1) := by
    unfold DayFromYear; omega
  unfold yearOfDay
  simp only
  generalize 1970 + (d * 400) / 146097 = e at *
  split_ifs with h1 h2
  · exact ⟨h1, hi⟩
  · exact ⟨h2, not_le.1 h1⟩
  · simp only [sub_add_cancel]
    exact ⟨lo, not_le.1 h2⟩

/-- The model of `YearFromTime` meets its definition in ECMA-262: it is the largest `y`
with `TimeFromYear(y) ≤ t`. -/
theorem YearFromTime_largest (t : Int) :
    TimeFromYear (YearFromTime t) ≤ t ∧ ∀ y, TimeFromYear y ≤ t → y ≤ YearFromTime t := by
  have hs := yearOfDay_spec (Day t)
  unfold YearFromTime TimeFromYear
  generalize yearOfDay (Day t) = Y at hs
  unfold Day msPerDay at *
  constructor
  · omega
  · intro y hy
    by_contra hlt
    have hlt2 : Y + 1 ≤ y := by omega
    have hm : DayFromYear (Y + 1) ≤ DayFromYear y := by
      rcases eq_or_lt_of_le hlt2 with h | h
      · rw [h]
      · exact le_of_lt (DayFromYear_lt _ _ h)
    omega

/-! ## Dates: year, month and day of a time value -/

theorem Day_MakeDate (day time : Int) (h0 : 0 ≤ time) (h1 : time < msPerDay) :
    Day (MakeDate day time) = day ∧ TimeWithinDay (MakeDate day time) = time := by
  simp only [Day, TimeWithinDay, MakeDate, msPerDay] at *
  omega

theorem MakeDate_Day (t : Int) : MakeDate (Day t) (TimeWithinDay t) = t := by
  simp only [Day, TimeWithinDay, MakeDate, msPerDay]
  omega

theorem TimeWithinDay_bounds (t : Int) : 0 ≤ TimeWithinDay t ∧ TimeWithinDay t < msPerDay := by
  simp only [TimeWithinDay, msPerDay]
  omega

/-- A time value on day `k` (counted from 0) of year `y` has year `y` and day within the
year `k`. -/
theorem civil_of_day (y k t : Int) (hd : Day t = DayFromYear y + k) (hk0 : 0 ≤ k)
    (hk1 : k < DaysInYear y) :
    YearFromTime t = y ∧ DayWithinYear t = k ∧
      InLeapYear t = (if DaysInYear y = 366 then 1 else 0) := by
  have hy : YearFromTime t = y := by
    unfold YearFromTime
    apply yearOfDay_eq
    · omega
    · rw [DayFromYear_succ]; omega
  refine ⟨hy, ?_, ?_⟩
  · unfold DayWithinYear
    rw [hy]; omega
  · unfold InLeapYear
    rw [hy]

theorem DayWithinYear_bounds (t : Int) :
    0 ≤ DayWithinYear t ∧ DayWithinYear t < DaysInYear (YearFromTime t) := by
  have hs := yearOfDay_spec (Day t)
  rw [DayFromYear_succ] at hs
  unfold DayWithinYear YearFromTime
  omega

theorem InLeapYear_cases (t : Int) :
    (InLeapYear t = 0 ∧ DaysInYear (YearFromTime t) = 365) ∨
      (InLeapYear t = 1 ∧ DaysInYear (YearFromTime t) = 366) := by
  have hb := DaysInYear_bounds (YearFromTime t)
  unfold InLeapYear
  split_ifs with h
  · exact Or.inr ⟨rfl, h⟩
  · exact Or.inl ⟨rfl, by omega⟩

theorem MonthFromTime_bounds (t : Int) : 0 ≤ MonthFromTime t ∧ MonthFromTime t ≤ 11 := by
  unfold MonthFromTime monthOfDayInYear
  omega

theorem DateFromTime_bounds (t : Int) : 1 ≤ DateFromTime t ∧ DateFromTime t ≤ 31 := by
  have hb := DayWithinYear_bounds t
  have hl := InLeapYear_cases t
  unfold DateFromTime MonthFromTime monthOfDayInYear monthStart
  generalize DayWithinYear t = k at *
  generalize InLeapYear t = l at *
  generalize DaysInYear (YearFromTime t) = n at *
  omega

/-- Month and day of the month of day `monthStart m leap + date - 1` of a year, for a
`date` up to 28. -/
theorem month_of_monthStart (m leap date : Int) (hm0 : 0 ≤ m) (hm1 : m ≤ 11)
    (hl : leap = 0 ∨ leap = 1) (hd0 : 1 ≤ date) (hd1 : date ≤ 28) :
    monthOfDayInYear (monthStart m leap + date - 1) leap = m ∧
      monthStart m leap + date - 1 < 365 + leap := by
  unfold monthOfDayInYear monthStart
  omega

theorem monthStart_nonneg (m leap : Int) (hl : leap = 0 ∨ leap = 1) :
    0 ≤ monthStart m leap := by
  unfold monthStart
  omega

/-- The day `MakeDay(year, month, date)` with `1 ≤ date ≤ 28` lies in year
`year + floor(month / 12)` and month `month modulo 12`, and is day `date` of that month. -/
theorem civil_MakeDay (year month date time : Int) (hd0 : 1 ≤ date) (hd1 : date ≤ 28)
    (h0 : 0 ≤ time) (h1 : time < msPerDay) :
    YearFromTime (MakeDate (MakeDay year month date) time) = year + month / 12 ∧
      MonthFromTime (MakeDate (MakeDay year month date) time) = month % 12 ∧
      DateFromTime (MakeDate (MakeDay year month date) time) = date ∧
      TimeWithinDay (MakeDate (MakeDay year month date) time) = time := by
  have hD := Day_MakeDate (MakeDay year month date) time h0 h1
  have hb := DaysInYear_bounds (year + month / 12)
  have hl : (if DaysInYear (year + month / 12) = 366 then (1 : Int) else 0) = 0 ∨
      (if DaysInYear (year + month / 12) = 366 then (1 : Int) else 0) = 1 := by
    split_ifs <;> simp
  have hdiy : DaysInYear (year + month / 12)
      = 365 + (if DaysInYear (year + month / 12) = 366 then (1 : Int) else 0) := by
    split_ifs with h <;> omega
  have hms := month_of_monthStart (month % 12)
    (if DaysInYear (year + month / 12) = 366 then 1 else 0) date
    (by omega) (by omega) hl hd0 hd1
  have hk0 := monthStart_nonneg (month % 12)
    (if DaysInYear (year + month / 12) = 366 then 1 else 0) hl
  have hc := civil_of_day (year + month / 12)
    (monthStart (month % 12) (if DaysInYear (year + month / 12) = 366 then 1 else 0)
      + date - 1)
    (MakeDate (MakeDay year month date) time)
    (by rw [hD.1]; unfold MakeDay; simp only; omega) (by omega) (by omega)
  obtain ⟨hy, hk, hleap⟩ := hc
  refine ⟨hy, ?_, ?_, hD.2⟩
  · unfold MonthFromTime
    rw [hk, hleap]
    exact hms.1
  · unfold DateFromTime MonthFromTime
    rw [hk, hleap, hms.1]
    omega

/-- The choice of day made in `MakeDay` is the one ECMA-262 asks for: the first day of the
month has year `ym`, month `mn` and date 1. -/
theorem MakeDay_first (year month : Int) :
    YearFromTime (MakeDate (MakeDay year month 1) 0) = year + month / 12 ∧
      MonthFromTime (MakeDate (MakeDay year month 1) 0) = month % 12 ∧
      DateFromTime (MakeDate (MakeDay year month 1) 0) = 1 := by
  have h := civil_MakeDay year month 1 0 (by omega) (by omega) (by omega) (by decide)
  exact ⟨h.1, h.2.1, h.2.2.1⟩

/-! ## Calendar: `getDaysInMonth` -/

theorem DaysInYear_eq_366_iff (y : Int) : DaysInYear y = 366 ↔ isGregorianLeapYear y := by
  unfold DaysInYear isGregorianLeapYear
  split_ifs <;> omega

theorem gregorianDaysInMonth_eq (y month : Int) :
    gregorianDaysInMonth y month
      = if month = 1 then 28 + (if DaysInYear y = 366 then 1 else 0)
        else if month = 3 ∨ month = 5 ∨ month = 8 ∨ month = 10 then 30 else 31 := by
  unfold gregorianDaysInMonth
  by_cases h : isGregorianLeapYear y
  · rw [if_pos h, if_pos ((DaysInYear_eq_366_iff y).2 h)]
    norm_num
  · rw [if_neg h, if_neg (fun h2 => h ((DaysInYear_eq_366_iff y).1 h2))]
    norm_num

theorem month_tables (m l : Int) (hm0 : 0 ≤ m) (hm1 : m ≤ 10) (hl : l = 0 ∨ l = 1) :
    0 ≤ monthStart (m + 1) l - 1 ∧ monthStart (m + 1) l - 1 < 365 + l ∧
      monthOfDayInYear (monthStart (m + 1) l - 1) l = m ∧
      monthStart (m + 1) l - 1 - monthStart m l + 1
        = (if m = 1 then 28 + l
          else if m = 3 ∨ m = 5 ∨ m = 8 ∨ m = 10 then 30 else 31) := by
  interval_cases m <;> rcases hl with rfl | rfl <;> decide

/-- Day 0 of month `month + 1` is the last day of month `month`: its date is the length of
the month under the Gregorian rules (for any year given in full). -/
theorem lastDay_date (yr month : Int) (hm0 : 0 ≤ month) (hm1 : month ≤ 11) :
    DateFromTime (MakeDate (MakeDay yr (month + 1) 0) 0) = gregorianDaysInMonth yr month ∧
      Day (MakeDate (MakeDay yr (month + 1) 0) 0) < DayFromYear yr + 366 ∧
      DayFromYear yr ≤ Day (MakeDate (MakeDay yr (month + 1) 0) 0) := by
  have hD := (Day_MakeDate (MakeDay yr (month + 1) 0) 0 (by omega) (by decide)).1
  have hb := DaysInYear_bounds yr
  have hsucc := DayFromYear_succ yr
  have hdiy : DaysInYear yr = 365 + (if DaysInYear yr = 366 then (1 : Int) else 0) := by
    split_ifs with h <;> omega
  rw [gregorianDaysInMonth_eq]
  generalize hl : (if DaysInYear yr = 366 then (1 : Int) else 0) = l at *
  have hl01 : l = 0 ∨ l = 1 := by
    rw [← hl]; split_ifs <;> simp
  by_cases h11 : month = 11
  · subst h11
    have hmk : MakeDay yr (11 + 1) 0 = DayFromYear yr + (364 + l) := by
      unfold MakeDay
      simp only [monthStart]
      norm_num
      omega
    have hc := civil_of_day yr (364 + l) (MakeDate (MakeDay yr (11 + 1) 0) 0)
      (by rw [hD, hmk]) (by omega) (by omega)
    obtain ⟨hy, hk, hleap⟩ := hc
    rw [hl] at hleap
    refine ⟨?_, by omega, by omega⟩
    unfold DateFromTime MonthFromTime
    rw [hk, hleap]
    unfold monthOfDayInYear monthStart
    omega
  · have hq : (month + 1) / 12 = 0 := by omega
    have hr : (month + 1) % 12 = month + 1 := by omega
    have hmk : MakeDay yr (month + 1) 0 = DayFromYear yr + (monthStart (month + 1) l - 1) := by
      unfold MakeDay
      simp only [hq, hr, add_zero, hl]
      omega
    have hk0 := month_tables month l hm0 (by omega) hl01
    have hc := civil_of_day yr (monthStart (month + 1) l - 1)
      (MakeDate (MakeDay yr (month + 1) 0) 0)
      (by rw [hD, hmk]) (by omega) (by omega)
    obtain ⟨hy, hk, hleap⟩ := hc
    rw [hl] at hleap
    refine ⟨?_, by omega, by omega⟩
    unfold DateFromTime MonthFromTime
    rw [hk, hleap, hk0.2.2.1]
    exact hk0.2.2.2

theorem MakeFullYear_gregorian (year month : Int) (h0 : ¬ (year = 0 ∧ month = 1)) :
    gregorianDaysInMonth (MakeFullYear year) month = gregorianDaysInMonth year month := by
  unfold gregorianDaysInMonth
  by_cases hm : month = 1
  · rw [if_pos hm, if_pos hm]
    have hy : year ≠ 0 := fun h => h0 ⟨h, hm⟩
    have hiff : isGregorianLeapYear (MakeFullYear year) ↔ isGregorianLeapYear year := by
      unfold isGregorianLeapYear MakeFullYear
      split_ifs <;> omega
    by_cases hl : isGregorianLeapYear year
    · rw [if_pos hl, if_pos (hiff.2 hl)]
    · rw [if_neg hl, if_neg (fun h => hl (hiff.1 h))]
  · rw [if_neg hm, if_neg hm]

theorem DayFromYear_range (yr : Int) (h0 : -271820 ≤ yr) (h1 : yr ≤ 275759) :
    -99999800 ≤ DayFromYear yr ∧ DayFromYear yr + 366 ≤ 99999800 := by
  unfold DayFromYear
  omega

theorem TimeClip_of_inDateRange (t : Int) (h : inDateRange t) : TimeClip t = some t := by
  unfold inDateRange at h
  unfold TimeClip
  rw [if_neg (by omega)]

theorem TimeClip_of_not_inDateRange (t : Int) (h : ¬ inDateRange t) : TimeClip t = none := by
  unfold inDateRange at h
  unfold TimeClip
  rw [if_pos (by omega)]

/-- Year, month, day of the month and weekday of a time value depend on its day only. -/
theorem civil_congr (a b : Int) (h : Day a = Day b) :
    YearFromTime a = YearFromTime b ∧ MonthFromTime a = MonthFromTime b ∧
      DateFromTime a = DateFromTime b ∧ WeekDay a = WeekDay b := by
  have hy : YearFromTime a = YearFromTime b := by unfold YearFromTime; rw [h]
  have hl : InLeapYear a = InLeapYear b := by unfold InLeapYear; rw [hy]
  have hd : DayWithinYear a = DayWithinYear b := by unfold DayWithinYear; rw [h, hy]
  have hm : MonthFromTime a = MonthFromTime b := by unfold MonthFromTime; rw [hd, hl]
  refine ⟨hy, hm, ?_, ?_⟩
  · unfold DateFromTime; rw [hd, hm, hl]
  · unfold WeekDay; rw [h]

theorem LocalTime_UTC_fixedOffset (c t : Int) :
    LocalTime (fixedOffset c) (UTC (fixedOffset c) t) = t ∧
      UTC (fixedOffset c) t = t - c ∧ LocalTime (fixedOffset c) t = t + c := by
  simp [LocalTime, UTC, fixedOffset]

/-- In a zone at a constant offset of at most a day, every local time keeps its day, and
the last day of every month of the years -271820 to 275759 lies within the range of
`Date`. -/
theorem fixedOffset_conditions (c year month : Int) (hc0 : -86400000 ≤ c) (hc1 : c ≤ 86400000)
    (hm0 : 0 ≤ month) (hm1 : month ≤ 11) (hy0 : -271820 ≤ year) (hy1 : year ≤ 275759) :
    keepsLocalDay (fixedOffset c) (finalDate year (month + 1) 0) ∧
      inDateRange (UTC (fixedOffset c) (finalDate year (month + 1) 0)) := by
  constructor
  · unfold keepsLocalDay
    rw [(LocalTime_UTC_fixedOffset c _).1]
  · have hyr : -271820 ≤ MakeFullYear year ∧ MakeFullYear year ≤ 275759 := by
      unfold MakeFullYear
      split_ifs <;> omega
    have hlast := lastDay_date (MakeFullYear year) month hm0 hm1
    have hrange := DayFromYear_range (MakeFullYear year) hyr.1 hyr.2
    have hD := (Day_MakeDate (MakeDay (MakeFullYear year) (month + 1) 0) 0 (by omega)
      (by decide)).1
    rw [hD] at hlast
    rw [(LocalTime_UTC_fixedOffset c _).2.1]
    unfold inDateRange finalDate
    simp only [MakeDate, msPerDay]
    omega

/-- Outside the range of `Date` the result is `NaN`. -/
theorem getDaysInMonth_out_of_range (tz : TimeZone) (year month : Int)
    (h : ¬ inDateRange (UTC tz (finalDate year (month + 1) 0))) :
    getDaysInMonth tz year month = none := by
  unfold getDaysInMonth newDate
  rw [TimeClip_of_not_inDateRange _ h]
  rfl

/-- C9 (amended): for every integer year and every month 0-11, except February of year 0,
whenever the last day of the month lies within the range of `Date` and the local midnight
that begins it is not moved to another calendar day by a transition of the local time zone,
`getDaysInMonth(year, month)` is the number of days of that month under the Gregorian
rules, December included (there `month + 1` rolls into the next year). -/
theorem getDaysInMonth_gregorian (tz : TimeZone) (year month : Int)
    (hm0 : 0 ≤ month) (hm1 : month ≤ 11) (h0 : ¬ (year = 0 ∧ month = 1))
    (hrange : inDateRange (UTC tz (finalDate year (month + 1) 0)))
    (hzone : keepsLocalDay tz (finalDate year (month + 1) 0)) :
    getDaysInMonth tz year month = some (gregorianDaysInMonth year month) := by
  have hlast := lastDay_date (MakeFullYear year) month hm0 hm1
  unfold keepsLocalDay at hzone
  have hc := civil_congr _ _ hzone
  unfold getDaysInMonth newDate
  rw [TimeClip_of_inDateRange _ hrange]
  simp only [getDate, Option.map_some']
  rw [hc.2.2.1]
  unfold finalDate
  rw [hlast.1, MakeFullYear_gregorian year month h0]

theorem getDaysInMonth_gregorian_witness :
    getDaysInMonth utc 2024 1 = some 29 ∧ getDaysInMonth utc 275760 7 = some 31 ∧
      getDaysInMonth kiritimati 1994 10 = some 30 :=
  ⟨getDaysInMonth_gregorian utc 2024 1 (by decide) (by decide) (by decide) (by decide)
      (by decide),
    getDaysInMonth_gregorian utc 275760 7 (by decide) (by decide) (by decide) (by decide)
      (by decide),
    getDaysInMonth_gregorian kiritimati 1994 10 (by decide) (by decide) (by decide) (by decide)
      (by decide)⟩

/-- C9 (counterexample): in the zone UTC `getDaysInMonth(0, 1)` is 28, the constructor
reading year 0 as 1900, while February of year 0 (divisible by 400) has 29 days under the
Gregorian rules, and `getDaysInMonth(300000, 0)` is `NaN`, the date lying outside the range
of `Date`; with the offsets of Pacific/Kiritimati `getDaysInMonth(1994, 11)` is 1, the local
day 31 December 1994 being skipped, while December has 31 days. -/
theorem getDaysInMonth_year_zero :
    getDaysInMonth utc 0 1 = some 28 ∧ gregorianDaysInMonth 0 1 = 29 ∧
      getDaysInMonth utc 0 1 ≠ some (gregorianDaysInMonth 0 1) ∧
      getDaysInMonth utc 300000 0 = none ∧ gregorianDaysInMonth 300000 0 = 31 ∧
      getDaysInMonth kiritimati 1994 11 = some 1 ∧ gregorianDaysInMonth 1994 11 = 31 ∧
      getDaysInMonth kiritimati 1994 11 ≠ some (gregorianDaysInMonth 1994 11) := by
  decide

/-! ## Calendar: `renderCalendar` -/

theorem pushEmpty_eq (n : Int) (k : Nat) :
    ∀ (i : Int) (acc : List Cell), (n - i).toNat = k →
      pushEmpty n i acc
        = acc ++ (List.range k).map (fun j : Nat => Cell.empty (i + (j : Int))) := by
  induction k with
  | zero =>
    intro i acc h
    rw [pushEmpty, if_neg (by omega)]
    simp
  | succ k ih =>
    intro i acc h
    rw [pushEmpty, if_pos (by omega), ih (i + 1) _ (by omega)]
    rw [List.range_succ_eq_map, List.map_cons, List.map_map, List.append_assoc]
    simp only [List.singleton_append, Nat.cast_zero, add_zero, List.cons.injEq, true_and,
      List.append_cancel_left_eq]
    apply List.map_congr_left
    intro j _
    simp only [Function.comp_apply, Nat.succ_eq_add_one, Nat.cast_add, Nat.cast_one]
    congr 1
    omega

theorem pushDays_eq (n : Int) (k : Nat) :
    ∀ (day : Int) (acc : List Cell), (n + 1 - day).toNat = k →
      pushDays n day acc
        = acc ++ (List.range k).map (fun j : Nat => Cell.day (day + (j : Int))) := by
  induction k with
  | zero =>
    intro day acc h
    rw [pushDays, if_neg (by omega)]
    simp
  | succ k ih =>
    intro day acc h
    rw [pushDays, if_pos (by omega), ih (day + 1) _ (by omega)]
    rw [List.range_succ_eq_map, List.map_cons, List.map_map, List.append_assoc]
    simp only [List.singleton_append, Nat.cast_zero, add_zero, List.cons.injEq, true_and,
      List.append_cancel_left_eq]
    apply List.map_congr_left
    intro j _
    simp only [Function.comp_apply, Nat.succ_eq_add_one, Nat.cast_add, Nat.cast_one]
    congr 1
    omega

theorem WeekDay_bounds (t : Int) : 0 ≤ WeekDay t ∧ WeekDay t ≤ 6 := by
  unfold WeekDay
  omega

/-- C10 (amended): in every local time zone, whenever `getFirstDayOfMonth(year, month)` and
`getDaysInMonth(year, month)` are numbers `f` and `d` (the month lies within the range of
`Date`), `renderCalendar` returns exactly `f` blank cells (keys `empty-0` .. `empty-(f-1)`)
followed by the day cells numbered 1, 2, ..., `d` in increasing order, so its length is
`f + d`; the sequence depends on `(year, month)` only. -/
theorem renderCalendar_cells (tz : TimeZone) (year month f d : Int)
    (hf : getFirstDayOfMonth tz year month = some f)
    (hd : getDaysInMonth tz year month = some d) :
    renderCalendar tz year month
        = (List.range f.toNat).map (fun j : Nat => Cell.empty (j : Int))
          ++ (List.range d.toNat).map (fun j : Nat => Cell.day ((j : Int) + 1)) ∧
      ((renderCalendar tz year month).length : Int) = f + d ∧
      (0 ≤ f ∧ f ≤ 6) ∧ (1 ≤ d ∧ d ≤ 31) ∧
      ∀ year2 month2 : Int, year2 = year → month2 = month →
        renderCalendar tz year2 month2 = renderCalendar tz year month := by
  have hfb : 0 ≤ f ∧ f ≤ 6 := by
    unfold getFirstDayOfMonth getDay at hf
    cases hn : newDate tz year month 1 with
    | none => rw [hn] at hf; simp at hf
    | some t =>
      rw [hn] at hf
      simp only [Option.map_some', Option.some.injEq] at hf
      rw [← hf]
      exact WeekDay_bounds _
  have hdb : 1 ≤ d ∧ d ≤ 31 := by
    unfold getDaysInMonth getDate at hd
    cases hn : newDate tz year (month + 1) 0 with
    | none => rw [hn] at hd; simp at hd
    | some t =>
      rw [hn] at hd
      simp only [Option.map_some', Option.some.injEq] at hd
      rw [← hd]
      exact DateFromTime_bounds _
  have hr : renderCalendar tz year month
        = (List.range f.toNat).map (fun j : Nat => Cell.empty (j : Int))
          ++ (List.range d.toNat).map (fun j : Nat => Cell.day ((j : Int) + 1)) := by
    unfold renderCalendar
    simp only [hf, hd]
    rw [pushDays_eq d d.toNat 1 _ (by omega), pushEmpty_eq f f.toNat 0 _ (by omega)]
    simp only [List.nil_append, zero_add]
    congr 1
    apply List.map_congr_left
    intro j _
    congr 1
    omega
  refine ⟨hr, ?_, hfb, hdb, ?_⟩
  · rw [hr]
    simp only [List.length_append, List.length_map, List.length_range, Nat.cast_add]
    omega
  · intro year2 month2 hy hm
    rw [hy, hm]

theorem renderCalendar_cells_witness :
    ((renderCalendar utc 2024 1).length : Int) = 4 + 29 :=
  (renderCalendar_cells utc 2024 1 4 29 (by decide) (by decide)).2.1

/-- C10 (counterexample): for January of year 300000, outside the range of `Date`, both
`getFirstDayOfMonth` and `getDaysInMonth` are `NaN` and `renderCalendar` returns the empty
sequence: there are no numbers of blank and day cells for its length 0 to be the sum of. -/
theorem renderCalendar_out_of_range :
    renderCalendar utc 300000 0 = [] ∧
      getFirstDayOfMonth utc 300000 0 = none ∧ getDaysInMonth utc 300000 0 = none ∧
      ¬ ∃ f d : Int, getFirstDayOfMonth utc 300000 0 = some f ∧
        getDaysInMonth utc 300000 0 = some d ∧
        ((renderCalendar utc 300000 0).length : Int) = f + d := by
  have hf : getFirstDayOfMonth utc 300000 0 = none := by decide
  have hd : getDaysInMonth utc 300000 0 = none := by decide
  refine ⟨?_, hf, hd, ?_⟩
  · unfold renderCalendar
    simp only [hf, hd]
  · rintro ⟨f, d, h1, _, _⟩
    rw [hf] at h1
    exact Option.noConfusion h1

/-! ## Calendar: `changeMonth` -/

theorem changeMonth_some (tz : TimeZone) (t d : Int) :
    changeMonth tz (some t) d
      = TimeClip (UTC tz (MakeDate
          (MakeDay (YearFromTime (LocalTime tz t)) (MonthFromTime (LocalTime tz t) + d)
            (DateFromTime (LocalTime tz t)))
          (TimeWithinDay (LocalTime tz t)))) := by
  simp [changeMonth, setMonth, getMonth]

theorem TimeClip_eq_some (x : Int) (h : TimeClip x ≠ none) : TimeClip x = some x := by
  unfold TimeClip at *
  split_ifs at h ⊢ with hc
  · exact absurd rfl h
  · rfl

theorem MakeDay_shift (y m d1 d2 date : Int) :
    MakeDay (y + (m + d1) / 12) ((m + d1) % 12 + d2) date = MakeDay y (m + (d1 + d2)) date := by
  have hq : y + (m + d1) / 12 + ((m + d1) % 12 + d2) / 12 = y + (m + (d1 + d2)) / 12 := by
    omega
  have hr : ((m + d1) % 12 + d2) % 12 = (m + (d1 + d2)) % 12 := by omega
  unfold MakeDay
  simp only [hq, hr]

/-- What holds of `changeMonth`: in a zone at a constant offset from UTC, for a cursor whose
local day of the month is at most 28 and all integers `d1`, `d2` such that the cursor
shifted by `d1` is still a valid date, shifting by `d1` and then by `d2` gives the same
date, hence the same displayed (year, month), as shifting once by `d1 + d2`; the month
shown after a shift by `d1` is `(month + d1) mod 12` and the year is increased by the carry
`floor((month + d1) / 12)`. -/
theorem changeMonth_additive (c t d1 d2 : Int)
    (hday : DateFromTime (LocalTime (fixedOffset c) t) ≤ 28)
    (hvalid : changeMonth (fixedOffset c) (some t) d1 ≠ none) :
    changeMonth (fixedOffset c) (changeMonth (fixedOffset c) (some t) d1) d2
        = changeMonth (fixedOffset c) (some t) (d1 + d2) ∧
      displayed (fixedOffset c) (changeMonth (fixedOffset c) (some t) d1)
        = some (YearFromTime (LocalTime (fixedOffset c) t)
              + (MonthFromTime (LocalTime (fixedOffset c) t) + d1) / 12,
            (MonthFromTime (LocalTime (fixedOffset c) t) + d1) % 12) := by
  have hD := DateFromTime_bounds (LocalTime (fixedOffset c) t)
  have hT := TimeWithinDay_bounds (LocalTime (fixedOffset c) t)
  have hc := civil_MakeDay (YearFromTime (LocalTime (fixedOffset c) t))
    (MonthFromTime (LocalTime (fixedOffset c) t) + d1)
    (DateFromTime (LocalTime (fixedOffset c) t))
    (TimeWithinDay (LocalTime (fixedOffset c) t)) hD.1 hday hT.1 hT.2
  rw [changeMonth_some] at hvalid
  have h1 := TimeClip_eq_some _ hvalid
  have hL := fun x => (LocalTime_UTC_fixedOffset c x).1
  constructor
  · rw [changeMonth_some (fixedOffset c) t d1, h1, changeMonth_some, changeMonth_some, hL,
      hc.1, hc.2.1, hc.2.2.1, hc.2.2.2, MakeDay_shift]
  · rw [changeMonth_some (fixedOffset c) t d1, h1]
    simp only [displayed, Option.map_some', hL, hc.1, hc.2.1]

theorem changeMonth_additive_example :
    changeMonth utc (changeMonth utc (newDate utc 2023 11 15) 1) (-1)
        = changeMonth utc (newDate utc 2023 11 15) (1 + -1) ∧
      displayed utc (changeMonth utc (newDate utc 2023 11 15) 1) = some (2024, 0) :=
  changeMonth_additive 0 1702598400000 1 (-1) (by decide) (by decide)

/-- C8 (failing input): the cursor is 31 January 2023 (zone UTC, and likewise five hours
behind UTC).  `changeMonth(1)` shows March 2023, not February: `setMonth` keeps day 31,
which overflows February.  Then `changeMonth(-1)` shows February 2023, while a single shift
by `1 + -1 = 0` shows January 2023. -/
theorem changeMonth_day_overflow :
    displayed utc (changeMonth utc (newDate utc 2023 0 31) 1) = some (2023, 2) ∧
      displayed utc (changeMonth utc (newDate utc 2023 0 31) 1) ≠ some (2023, (0 + 1) % 12) ∧
      displayed utc (changeMonth utc (changeMonth utc (newDate utc 2023 0 31) 1) (-1))
        = some (2023, 1) ∧
      displayed utc (changeMonth utc (newDate utc 2023 0 31) (1 + -1)) = some (2023, 0) ∧
      displayed utc (changeMonth utc (changeMonth utc (newDate utc 2023 0 31) 1) (-1))
        ≠ displayed utc (changeMonth utc (newDate utc 2023 0 31) (1 + -1)) ∧
      displayed (fixedOffset (-18000000))
          (changeMonth (fixedOffset (-18000000)) (newDate (fixedOffset (-18000000)) 2023 0 31) 1)
        = some (2023, 2) := by
  decide

end App
